import Mathlib

/-!
# Verification of the OllamaCopilot multi-transport MCP client

Shallow embedding of the MCP client layer of the repository
(`src/replit-copilot-extension/src`): the stdio request/response
correlation of `MCPClient` (mcpClient.ts), the multi-server registry of
`EnhancedMCPClient` (enhancedMcpClient.ts) and the configuration
loader/validator `MCPConfigParser` (mcpConfigParser.ts).

JavaScript `Map` objects are modelled as association lists with unique
keys kept in insertion order (`mapSet` mirrors `Map.prototype.set`:
overwrite in place, append fresh keys at the end). Promise completion
sinks are modelled by tagging each pending entry with an abstract sink
identifier and recording the outcomes delivered to sinks.
-/

/-- Model of `Map.prototype.set` on an insertion-ordered association list:
an existing key is overwritten in place, a fresh key is appended. -/
def mapSet {κ α : Type} [DecidableEq κ] (m : List (κ × α)) (k : κ) (v : α) :
    List (κ × α) :=
  if (m.lookup k).isSome then
    m.map (fun p => if p.1 = k then (k, v) else p)
  else
    m ++ [(k, v)]

/-- Model of `Map.prototype.delete`: remove the entry with the given key. -/
def mapDelete {κ α : Type} [DecidableEq κ] (m : List (κ × α)) (k : κ) :
    List (κ × α) :=
  m.filter (fun p => p.1 ≠ k)

namespace MCPClient

/-- A parsed JSON-RPC response frame, as consumed by
`handleStdioResponse` (mcpClient.ts lines 150-159): the `id` member
(`0` models a falsy/absent id, since the code guards on `response.id`
being truthy), whether the frame carries an `error` member, and an
abstract payload (the `result` value, or the `error.message`). -/
structure Frame where
  id : Nat
  hasError : Bool
  payload : Nat
deriving DecidableEq, Repr

/-- The outcome a completion sink receives: `result` (the promise is
resolved with `response.result`), `error` (rejected with
`response.error.message`), or `timeout` (rejected with the string
"MCP request timeout", mcpClient.ts line 211). -/
inductive Outcome
  | result (payload : Nat)
  | error (payload : Nat)
  | timeout
deriving DecidableEq, Repr

/-- The `requestQueue` map of `MCPClient` (mcpClient.ts line 18):
call id → abstract sink tag standing for the `{resolve, reject}`
record stored there by `sendRequest`. -/
abbrev Queue := List (Nat × Nat)

/-- One iteration of the loop body of `handleStdioResponse`
(mcpClient.ts lines 151-160) on an already-parsed frame: if the id is
truthy and present in the queue, the entry is deleted and its sink is
rejected (when the frame has an `error` member) or resolved (with the
`result` member); otherwise nothing happens. Returns the new queue and
the delivery, if any, as (sink tag, outcome). -/
def deliverFrame (q : Queue) (f : Frame) : Queue × Option (Nat × Outcome) :=
  if f.id ≠ 0 ∧ (q.lookup f.id).isSome then
    (mapDelete q f.id,
     some ((q.lookup f.id).getD 0,
           if f.hasError then Outcome.error f.payload else Outcome.result f.payload))
  else
    (q, none)

/-- Embedding of `handleStdioResponse` (mcpClient.ts lines 145-166) on a chunk of
input lines. Each line is `some frame` when `JSON.parse` succeeds and
`none` when it throws. The whole loop body sits in one `try`: a parse
failure aborts the remaining lines and logs
"Failed to parse STDIO response" in the `catch`; no other branch logs.
Returns the final queue, the deliveries made, and the log output. -/
def handleStdioResponse (q : Queue) :
    List (Option Frame) → Queue × List (Nat × Outcome) × List String
  | [] => (q, [], [])
  | none :: _ => (q, [], ["Failed to parse STDIO response"])
  | some f :: rest =>
    let step := deliverFrame q f
    let r := handleStdioResponse step.1 rest
    (r.1, step.2.toList ++ r.2.1, r.2.2)

/-- The lifecycle state of one issued stdio call, projected from
`sendRequest` (mcpClient.ts lines 208-226): whether its entry is still
in `requestQueue`, whether its `setTimeout` timer is still armed
(i.e. neither fired nor cleared by `clearTimeout`), and the outcome
delivered to its promise, if any. Right after registration (lines
209-225) the entry is in the queue, the timer is armed and nothing
has been delivered. -/
structure CallState where
  inQueue : Bool
  timerArmed : Bool
  outcome : Option Outcome
deriving DecidableEq, Repr

/-- The state right after `sendRequest` registers the call. -/
def initCall : CallState := ⟨true, true, none⟩

/-- Events that can touch one pending stdio call: a response frame for
its id arrives at `handleStdioResponse`, its timeout timer fires, or
`disconnect` is called on the client. -/
inductive CallEvent
  | respond (hasError : Bool) (payload : Nat)
  | timerFire
  | disconnect
deriving DecidableEq, Repr

/-- One event applied to one call, line by line from the source.
`respond`: `handleStdioResponse` finds the id in the queue only while
the entry is present; it deletes the entry and invokes the stored
wrapper, which runs `clearTimeout` and settles the promise
(mcpClient.ts lines 151-159 with the wrappers of lines 214-223); with
no matching entry the frame is an orphan and nothing changes.
`timerFire`: the timer callback (lines 209-212) deletes the entry and
rejects with the timeout error; it can only run while the timer is
armed. `disconnect` (lines 168-180): `requestQueue.clear()` removes
the entry but neither settles the promise nor clears the timer. -/
def stepCall (s : CallState) : CallEvent → CallState
  | .respond he p =>
    if s.inQueue then
      ⟨false, false, some (if he then Outcome.error p else Outcome.result p)⟩
    else
      s
  | .timerFire =>
    if s.timerArmed then
      ⟨false, false, some Outcome.timeout⟩
    else
      s
  | .disconnect => ⟨false, s.timerArmed, s.outcome⟩

/-- A sequence of events applied to a call state. -/
def runCall (s : CallState) (evs : List CallEvent) : CallState :=
  evs.foldl stepCall s

/-- Embedding of `disconnect` (mcpClient.ts lines 168-180) as it acts on the
`requestQueue`: the websocket and the stdio process are torn down and
then `this.requestQueue.clear()` empties the map. No completion sink
is invoked anywhere in the function, so the list of outcomes delivered
to pending calls is empty. -/
def disconnectQueue (_q : Queue) : Queue × List (Nat × Outcome) :=
  (([] : Queue), ([] : List (Nat × Outcome)))

/-- Embedding of `const id = Date.now()` (mcpClient.ts line 197): the call
identifier is the current clock reading in milliseconds. -/
def genId (now : Nat) : Nat := now

/-- Lifecycle invariant of one issued stdio call: the promise is
unsettled exactly while the timeout timer is still armed, and a
settled call no longer has a `requestQueue` entry. -/
def CallInv (s : CallState) : Prop :=
  (s.outcome = none ↔ s.timerArmed = true) ∧
  (∀ o : Outcome, s.outcome = some o → s.inQueue = false)

/-- Registration step of `sendRequest` (mcpClient.ts line 214):
`this.requestQueue.set(id, sink)`. -/
def registerCall (q : Queue) (id sink : Nat) : Queue := mapSet q id sink

end MCPClient

namespace MCPConfigParser

/-- One raw entry of the `servers` object of an mcp.json document
(mcpConfigParser.ts interface on lines 5-18, as it arrives from
`JSON.parse`, so `type` can be any string). The empty string models a
falsy/absent `type`; `none` models an absent-or-empty `command`,
`url`, `args`, `apiKey` or `timeout`. -/
structure RawServerEntry where
  type : String
  command : Option String
  args : Option (List String)
  url : Option String
  apiKey : Option String
  timeout : Option Nat
deriving DecidableEq, Repr

/-- A parsed mcp.json document: `servers` is `none` when the document
has no (truthy) `servers` member. -/
structure MCPJsonConfig where
  servers : Option (List (String × RawServerEntry))
deriving DecidableEq, Repr

/-- A typed server configuration as produced by `getServers`
(mcpConfigParser.ts lines 63-77). -/
structure MCPServerConfig where
  name : String
  type : String
  command : Option String
  args : List String
  url : Option String
  apiKey : Option String
  timeout : Nat
deriving DecidableEq, Repr

/-- The state of the configuration document on disk, as `loadConfig`
observes it: no file at the configured path (or no path configured),
a file whose read or `JSON.parse` throws, or a parseable document. -/
inductive FileState
  | missing
  | unreadable
  | content (cfg : MCPJsonConfig)
deriving DecidableEq, Repr

/-- Embedding of `loadConfig` (mcpConfigParser.ts lines 42-61). A missing file
returns `null` before touching `this.config`; a read/parse exception
is caught (logged and shown to the user) and also returns `null`,
again leaving `this.config` as it was, because the assignment
`this.config = JSON.parse(...)` happens only after a successful
parse. Result: (new `this.config` field, return value). -/
def loadConfig (fs : FileState) (prev : Option MCPJsonConfig) :
    Option MCPJsonConfig × Option MCPJsonConfig :=
  match fs with
  | .missing => (prev, none)
  | .unreadable => (prev, none)
  | .content c => (some c, some c)

/-- Embedding of `getServers` (mcpConfigParser.ts lines 63-77): empty list when
`this.config?.servers` is falsy, otherwise one `MCPServerConfig` per
entry with `type` defaulted to stdio, `args` to `[]` and `timeout` to
5000. -/
def getServers (config : Option MCPJsonConfig) : List MCPServerConfig :=
  match config with
  | none => []
  | some c =>
    match c.servers with
    | none => []
    | some servers =>
      servers.map (fun p =>
        { name := p.1
          type := if p.2.type = "" then "stdio" else p.2.type
          command := p.2.command
          args := (p.2.args).getD []
          url := p.2.url
          apiKey := p.2.apiKey
          timeout := (p.2.timeout).getD 5000 })

/-- The per-server checks of `validateConfig` (mcpConfigParser.ts
lines 94-108): a falsy `type` throws "missing type"; a stdio server
without a command throws "missing command"; an http or websocket
server without a URL throws "missing URL". Any other `type` value
falls through both branches and passes. -/
def validateServer (name : String) (s : RawServerEntry) : Except String Unit :=
  if s.type = "" then
    Except.error ("Server \x27" ++ name ++ "\x27 missing type")
  else if s.type = "stdio" then
    match s.command with
    | none => Except.error ("STDIO server \x27" ++ name ++ "\x27 missing command")
    | some _ => Except.ok ()
  else if s.type = "http" ∨ s.type = "websocket" then
    match s.url with
    | none =>
      Except.error (s.type.toUpper ++ " server \x27" ++ name ++ "\x27 missing URL")
    | some _ => Except.ok ()
  else
    Except.ok ()

/-- Characterization (spec side, to be proven equivalent): the checks
a raw server entry must pass to survive `validateConfig`. Note that an
unknown non-empty transport kind imposes no requirement. -/
def entryOk (s : RawServerEntry) : Prop :=
  s.type ≠ "" ∧
  (s.type = "stdio" → s.command ≠ none) ∧
  ((s.type = "http" ∨ s.type = "websocket") → s.url ≠ none)

instance (s : RawServerEntry) : Decidable (entryOk s) := by
  unfold entryOk
  infer_instance

/-- The `for...of` loop of `validateConfig`: the first failing server
throws its diagnostic, which the surrounding catch turns into `false`;
with no failing server the loop finishes. -/
def firstError : List (String × RawServerEntry) → Except String Unit
  | [] => Except.ok ()
  | (name, s) :: rest =>
    match validateServer name s with
    | Except.error e => Except.error e
    | Except.ok _ => firstError rest

/-- Embedding of `validateConfig` (mcpConfigParser.ts lines 84-116): load the
config (`null` → `false`); a falsy `servers` member throws
"Invalid servers configuration" (caught → `false`); then each server
entry is checked in order, the first diagnostic aborting with `false`;
otherwise `true`. -/
def validateConfig (fs : FileState) (prev : Option MCPJsonConfig) : Bool :=
  match (loadConfig fs prev).2 with
  | none => false
  | some c =>
    match c.servers with
    | none => false
    | some servers => (firstError servers).isOk

end MCPConfigParser

namespace EnhancedMCPClient

/-- A discovered tool (enhancedMcpClient.ts interface lines 7-12);
`inputSchema` is an opaque document, modelled as a string. -/
structure MCPTool where
  name : String
  description : String
  inputSchema : String
  serverId : String
deriving DecidableEq, Repr

/-- The mutable state of `EnhancedMCPClient` (lines 14-18):
`activeConnections` maps server name to its connection record
(abstracted to the connection kind tag), `availableTools` maps server
name to the tools discovered from that server, both insertion-ordered maps. -/
structure ClientState where
  activeConnections : List (String × String)
  availableTools : List (String × List MCPTool)
  connected : Bool
deriving DecidableEq, Repr

/-- Embedding of `connectToServer` (enhancedMcpClient.ts lines 68-86): switch on
the transport kind; stdio, http and websocket dispatch to the
matching adapter (abstracted by `attempt`, each adapter returning its
boolean outcome); the default branch throws
"Unsupported connection type", which the surrounding catch logs and
turns into `false`. -/
def connectToServer (sv : MCPConfigParser.MCPServerConfig)
    (attempt : String → Bool) : Bool :=
  if sv.type = "stdio" then attempt "stdio"
  else if sv.type = "http" then attempt "http"
  else if sv.type = "websocket" then attempt "websocket"
  else false

/-- Embedding of `connectAll` (enhancedMcpClient.ts lines 28-66): a failed
validation returns `false` before any connect attempt; otherwise every
per-server `connectToServer` call runs (none can reject, each settles with a
boolean), `successCount` counts the `true` outcomes, and
`this.connected = successCount > 0` is returned. `results` is the list
of per-server outcomes in server order. -/
def connectAll (isValid : Bool) (results : List Bool) : Bool :=
  if !isValid then false
  else decide (0 < results.countP (fun r => r))

/-- Embedding of `getAllTools` (lines 257-263): concatenate the per-server tool
slice in map iteration (insertion) order. -/
def getAllTools (availableTools : List (String × List MCPTool)) : List MCPTool :=
  availableTools.foldl (fun acc p => acc ++ p.2) []

/-- Embedding of `getConnectedServers` (lines 265-267). -/
def getConnectedServers (s : ClientState) : List String :=
  s.activeConnections.map Prod.fst

/-- Embedding of `isConnected` (lines 269-271): `this.connected &&
this.activeConnections.size > 0`. -/
def isConnected (s : ClientState) : Bool :=
  s.connected && decide (0 < s.activeConnections.length)

/-- The mock results of `executeToolOnServer` (lines 300-312). -/
inductive ToolResult
  | content (s : String)
  | successMsg (msg : String)
  | files (fs : List String)
deriving DecidableEq, Repr

/-- The switch of `executeToolOnServer` (lines 301-312): canned result
per known tool name, `throw "Unknown tool"` otherwise. The tool
parameters are abstracted to the `path` field, the only one the
mock consults. -/
def mockExecute (toolName path : String) : Except String ToolResult :=
  if toolName = "read_file" then
    Except.ok (ToolResult.content ("Mock content of file: " ++ path))
  else if toolName = "write_file" then
    Except.ok (ToolResult.successMsg ("Mock write to file: " ++ path))
  else if toolName = "delete_file" then
    Except.ok (ToolResult.successMsg ("Mock delete file: " ++ path))
  else if toolName = "list_directory" then
    Except.ok (ToolResult.files ["file1.txt", "file2.js", "subdir/"])
  else
    Except.error ("Unknown tool: " ++ toolName)

/-- Embedding of `executeToolOnServer` (lines 292-313): no entry for the server in
`activeConnections` throws "No connection to server"; otherwise the
mock execution runs. -/
def executeToolOnServer (activeConnections : List (String × String))
    (serverId toolName path : String) : Except String ToolResult :=
  if (activeConnections.lookup serverId).isSome then
    mockExecute toolName path
  else
    Except.error ("No connection to server \x27" ++ serverId ++ "\x27")

/-- Embedding of `callTool` (lines 281-290): walk `availableTools` in insertion
order, take the first server whose slice contains a tool with the
given name and execute there; with no owner at all throw
"not found in any connected server". -/
def callTool (availableTools : List (String × List MCPTool))
    (activeConnections : List (String × String))
    (toolName path : String) : Except String ToolResult :=
  match availableTools.find? (fun p => p.2.any (fun t => t.name = toolName)) with
  | some p => executeToolOnServer activeConnections p.1 toolName path
  | none =>
    Except.error ("Tool \x27" ++ toolName ++ "\x27 not found in any connected server")

/-- The owner scan inside `callTool` (lines 283-288): the first
server in map insertion order whose tool slice contains the name. -/
def toolOwner (availableTools : List (String × List MCPTool))
    (toolName : String) : Option String :=
  (availableTools.find? (fun p => p.2.any (fun t => t.name = toolName))).map Prod.fst

/-- Embedding of `disconnect` (lines 315-334): kill or close every connection,
then clear `activeConnections`, clear `availableTools`, and set
`connected` to `false`. No pending-call bookkeeping exists in this
class, so nothing else happens. -/
def disconnect (_s : ClientState) : ClientState :=
  { activeConnections := [], availableTools := [], connected := false }

end EnhancedMCPClient

/-! ## Theorems -/

namespace MCPClient

theorem runCall_nil (s : CallState) : runCall s [] = s := rfl

theorem runCall_cons (s : CallState) (e : CallEvent) (rest : List CallEvent) :
    runCall s (e :: rest) = runCall (stepCall s e) rest := rfl

theorem callInv_init : CallInv initCall := by
  constructor
  · simp [initCall]
  · intro o ho
    simp [initCall] at ho

theorem callInv_step (s : CallState) (e : CallEvent) (h : CallInv s) :
    CallInv (stepCall s e) := by
  obtain ⟨h1, h2⟩ := h
  cases e with
  | respond he p =>
    by_cases hq : s.inQueue = true
    · constructor <;> simp [stepCall, hq]
    · simp only [stepCall, hq, if_neg]
      exact ⟨h1, h2⟩
  | timerFire =>
    by_cases ht : s.timerArmed = true
    · constructor <;> simp [stepCall, ht]
    · simp only [stepCall, ht, if_neg]
      exact ⟨h1, h2⟩
  | disconnect =>
    refine ⟨h1, ?_⟩
    intro o _
    rfl

theorem stepCall_frozen (s : CallState) (e : CallEvent) (h : CallInv s)
    (o : Outcome) (ho : s.outcome = some o) : stepCall s e = s := by
  have harm : s.timerArmed = false := by
    cases hb : s.timerArmed with
    | false => rfl
    | true =>
      have hnone := h.1.mpr hb
      rw [ho] at hnone
      exact absurd hnone (by simp)
  have hq : s.inQueue = false := h.2 o ho
  obtain ⟨iq, ta, oc⟩ := s
  simp only at harm hq
  subst harm hq
  cases e <;> simp [stepCall]

end MCPClient

namespace MCPClient

theorem callInv_run (s : CallState) (evs : List CallEvent) (h : CallInv s) :
    CallInv (runCall s evs) := by
  induction evs generalizing s with
  | nil => exact h
  | cons e rest ih =>
    rw [runCall_cons]
    exact ih (stepCall s e) (callInv_step s e h)

theorem runCall_frozen (s : CallState) (evs : List CallEvent) (h : CallInv s)
    (o : Outcome) (ho : s.outcome = some o) : runCall s evs = s := by
  induction evs with
  | nil => rfl
  | cons e rest ih =>
    rw [runCall_cons, stepCall_frozen s e h o ho]
    exact ih

end MCPClient

/-- C1: for every issued stdio call, exactly one of
{result, error, timeout} is delivered and the `requestQueue` entry is
gone in all cases. Concretely, along any event sequence after
registration: (a) once an outcome is delivered the entry is out of the
queue; (b) the delivered outcome never changes afterwards, whatever
further responses, timer firings or disconnects happen (at most one
delivery); and (c) whenever the timeout timer has been disposed
(fired, or cleared — which the code does exactly upon delivering a
response outcome), an outcome has been delivered, so together with the
runtime guarantee that an armed timer eventually fires, exactly one
outcome is eventually delivered. -/
theorem sendRequest_exactly_one_outcome (evs : List MCPClient.CallEvent) :
    (∀ o : MCPClient.Outcome,
      (MCPClient.runCall MCPClient.initCall evs).outcome = some o →
      (MCPClient.runCall MCPClient.initCall evs).inQueue = false ∧
      ∀ evs2 : List MCPClient.CallEvent,
        (MCPClient.runCall (MCPClient.runCall MCPClient.initCall evs) evs2).outcome
          = some o) ∧
    ((MCPClient.runCall MCPClient.initCall evs).timerArmed = false →
      ∃ o : MCPClient.Outcome,
        (MCPClient.runCall MCPClient.initCall evs).outcome = some o) := by
  have hinv :=
    MCPClient.callInv_run MCPClient.initCall evs MCPClient.callInv_init
  constructor
  · intro o ho
    refine ⟨hinv.2 o ho, ?_⟩
    intro evs2
    rw [MCPClient.runCall_frozen _ evs2 hinv o ho]
    exact ho
  · intro harm
    cases hoc : (MCPClient.runCall MCPClient.initCall evs).outcome with
    | some o => exact ⟨o, rfl⟩
    | none =>
      rw [hinv.1.mp hoc] at harm
      exact absurd harm (by simp)

/-- Witness for C1 at a concrete run: a successful response delivered
at once removes the entry, and a later timer firing cannot change the
outcome. -/
theorem sendRequest_exactly_one_outcome_witness :
    (MCPClient.runCall MCPClient.initCall
        [MCPClient.CallEvent.respond false 7]).inQueue = false ∧
    (MCPClient.runCall
        (MCPClient.runCall MCPClient.initCall [MCPClient.CallEvent.respond false 7])
        [MCPClient.CallEvent.timerFire]).outcome
      = some (MCPClient.Outcome.result 7) :=
  ⟨((sendRequest_exactly_one_outcome [MCPClient.CallEvent.respond false 7]).1
      (MCPClient.Outcome.result 7) (by decide)).1,
   ((sendRequest_exactly_one_outcome [MCPClient.CallEvent.respond false 7]).1
      (MCPClient.Outcome.result 7) (by decide)).2 [MCPClient.CallEvent.timerFire]⟩

theorem lookup_isSome_of_mem_keys (q : List (Nat × Nat)) (k : Nat)
    (h : k ∈ q.map Prod.fst) : (q.lookup k).isSome := by
  induction q with
  | nil => simp at h
  | cons p rest ih =>
    obtain ⟨a, b⟩ := p
    simp only [List.map_cons, List.mem_cons] at h
    by_cases hk : k = a
    · have hbe : (k == a) = true := by simp [hk]
      simp [List.lookup, hbe]
    · have hbe : (k == a) = false := by simp [hk]
      simp only [List.lookup, hbe]
      rcases h with h | h
      · exact absurd h hk
      · exact ih h

theorem lookup_map_overwrite (q : List (Nat × Nat)) (k v : Nat)
    (h : (q.lookup k).isSome) :
    (q.map (fun p => if p.1 = k then (k, v) else p)).lookup k = some v := by
  induction q with
  | nil => simp at h
  | cons p rest ih =>
    obtain ⟨a, b⟩ := p
    by_cases hk : a = k
    · subst hk
      simp only [List.map_cons, if_pos trivial]
      simp [List.lookup]
    · have hbe : (k == a) = false := by simp [Ne.symm hk]
      simp only [List.map_cons, if_neg hk]
      simp only [List.lookup, hbe] at h ⊢
      exact ih h

theorem lookup_append_last (q : List (Nat × Nat)) (k v : Nat)
    (h : ¬(q.lookup k).isSome) :
    ((q ++ [(k, v)]).lookup k) = some v := by
  induction q with
  | nil => simp [List.lookup]
  | cons p rest ih =>
    obtain ⟨a, b⟩ := p
    by_cases hk : k = a
    · have hbe : (k == a) = true := by simp [hk]
      simp [List.lookup, hbe] at h
    · have hbe : (k == a) = false := by simp [hk]
      simp only [List.cons_append, List.lookup, hbe] at h ⊢
      exact ih h

theorem lookup_mapSet (q : List (Nat × Nat)) (k v : Nat) :
    (mapSet q k v).lookup k = some v := by
  unfold mapSet
  split
  case isTrue h => exact lookup_map_overwrite q k v h
  case isFalse h => exact lookup_append_last q k v h

theorem keys_nodup_mapSet (q : List (Nat × Nat)) (k v : Nat)
    (h : (q.map Prod.fst).Nodup) :
    ((mapSet q k v).map Prod.fst).Nodup := by
  unfold mapSet
  split
  case isTrue hs =>
    have hkeys : (q.map (fun p => if p.1 = k then (k, v) else p)).map Prod.fst
        = q.map Prod.fst := by
      rw [List.map_map]
      apply List.map_congr_left
      intro p _
      by_cases hk : p.1 = k
      · simp [Function.comp, hk]
      · simp [Function.comp, hk]
    rw [hkeys]
    exact h
  case isFalse hs =>
    rw [List.map_append]
    simp only [List.map_cons, List.map_nil]
    rw [List.nodup_append]
    refine ⟨h, List.nodup_singleton k, ?_⟩
    intro a ha hb
    simp only [List.mem_singleton] at hb
    subst hb
    exact hs (lookup_isSome_of_mem_keys q a ha)

/-- C2: on a validated configuration, `connectAll` returns `true` iff
at least one per-server connect attempt reported success, no matter how
many others failed. -/
theorem connectAll_true_iff_some_success (isValid : Bool) (results : List Bool)
    (hvalid : isValid = true) :
    (EnhancedMCPClient.connectAll isValid results = true ↔
      ∃ r ∈ results, r = true) := by
  subst hvalid
  simp [EnhancedMCPClient.connectAll, List.countP_pos_iff]

/-- Witness for C2: one success among failures makes `connectAll`
return `true`. -/
theorem connectAll_true_iff_some_success_witness :
    EnhancedMCPClient.connectAll true [false, true, false] = true :=
  (connectAll_true_iff_some_success true [false, true, false] rfl).mpr
    (by decide)

/-- C3 counterexample: a connection with one pending call is closed;
the claim demands exactly one "connection closed" rejection, but
`disconnect` delivers no outcome at all to the pending call — the
delivery list of `disconnectQueue` is empty while the queue held one
entry. -/
theorem disconnect_no_connection_closed_rejection :
    ([((5 : Nat), (0 : Nat))] : MCPClient.Queue).length = 1 ∧
    (MCPClient.disconnectQueue [((5 : Nat), (0 : Nat))]).2 = [] ∧
    (MCPClient.disconnectQueue [((5 : Nat), (0 : Nat))]).2.length ≠ 1 := by
  refine ⟨rfl, rfl, ?_⟩
  decide

/-- C3 amended: `disconnect` removes every pending entry from the
request queue but rejects none of them at close time; a call that was
pending at disconnect still holds its armed timeout timer and is later
completed with a timeout failure, not a "connection closed" one. -/
theorem disconnect_clears_without_rejecting (q : MCPClient.Queue) :
    MCPClient.disconnectQueue q = ([], []) ∧
    MCPClient.runCall MCPClient.initCall
        [MCPClient.CallEvent.disconnect, MCPClient.CallEvent.timerFire]
      = ⟨false, false, some MCPClient.Outcome.timeout⟩ :=
  ⟨rfl, rfl⟩

/-- C4 counterexample: the identifier is `Date.now()`, a function of
the clock alone, so two calls issued in the same millisecond (clock
reading 1000) receive the same identifier, and registering the second
overwrites the entry of the first call: the queue ends with the single
entry (1000, sink 2), the first sink evicted. -/
theorem sendRequest_id_collision :
    MCPClient.genId 1000 = MCPClient.genId 1000 ∧
    MCPClient.registerCall
        (MCPClient.registerCall [] (MCPClient.genId 1000) 1)
        (MCPClient.genId 1000) 2 = [(1000, 2)] := by
  refine ⟨rfl, ?_⟩
  decide

/-- C4 amended: identifiers are the millisecond clock reading, so two
calls receive distinct identifiers iff they are issued at distinct
clock readings; and within one client the queue keeps at most one
entry per identifier, because `Map.set` overwrites in place: after
registration the identifier maps to the new sink and key uniqueness is
preserved. -/
theorem sendRequest_id_unique_iff_distinct_times (t1 t2 : Nat)
    (q : MCPClient.Queue) (id sink : Nat) :
    (MCPClient.genId t1 = MCPClient.genId t2 ↔ t1 = t2) ∧
    (MCPClient.registerCall q id sink).lookup id = some sink ∧
    ((q.map Prod.fst).Nodup →
      ((MCPClient.registerCall q id sink).map Prod.fst).Nodup) := by
  refine ⟨Iff.rfl, ?_, ?_⟩
  · exact lookup_mapSet q id sink
  · exact fun h => keys_nodup_mapSet q id sink h

/-- Witness for C4 amended at concrete inputs. -/
theorem sendRequest_id_unique_iff_distinct_times_witness :
    (MCPClient.registerCall [(3, 9)] 3 5).lookup 3 = some 5 ∧
    ((MCPClient.registerCall [(3, 9)] 3 5).map Prod.fst).Nodup :=
  ⟨(sendRequest_id_unique_iff_distinct_times 0 0 [(3, 9)] 3 5).2.1,
   (sendRequest_id_unique_iff_distinct_times 0 0 [(3, 9)] 3 5).2.2 (by decide)⟩

/-- C5 counterexample: an inbound frame (id 2) with no matching
pending call, processed against a queue holding call 1, is discarded
with the queue untouched and nothing delivered — but, contrary to the
claim that the reader logs the orphan, the log output is empty: no
branch of `handleStdioResponse` logs an orphan (only a parse failure
is logged). -/
theorem orphan_response_produces_no_log :
    MCPClient.handleStdioResponse [(1, 0)] [some (MCPClient.Frame.mk 2 false 9)]
      = ([(1, 0)], [], []) := by
  decide

/-- C5 amended: an inbound frame whose id has no matching pending call
(or whose id is falsy) is silently discarded: processing the chunk is
exactly as if the orphan line were absent — the reader does not raise,
continues with the remaining lines, leaves every queue entry in place,
delivers nothing for the orphan, and logs nothing. -/
theorem orphan_response_discarded_silently (q : MCPClient.Queue)
    (f : MCPClient.Frame) (rest : List (Option MCPClient.Frame))
    (h : f.id = 0 ∨ q.lookup f.id = none) :
    MCPClient.handleStdioResponse q (some f :: rest)
      = MCPClient.handleStdioResponse q rest := by
  have hdel : MCPClient.deliverFrame q f = (q, none) := by
    unfold MCPClient.deliverFrame
    rcases h with h | h
    · simp [h]
    · simp [h]
  simp [MCPClient.handleStdioResponse, hdel]

/-- Witness for C5 amended: the orphan frame (id 2) is skipped and the
frame for pending call 1 still resolves in the same chunk. -/
theorem orphan_response_discarded_silently_witness :
    MCPClient.handleStdioResponse [(1, 0)]
        [some (MCPClient.Frame.mk 2 false 9), some (MCPClient.Frame.mk 1 false 4)]
      = MCPClient.handleStdioResponse [(1, 0)] [some (MCPClient.Frame.mk 1 false 4)] :=
  orphan_response_discarded_silently [(1, 0)] (MCPClient.Frame.mk 2 false 9)
    [some (MCPClient.Frame.mk 1 false 4)] (Or.inr (by decide))

namespace MCPConfigParser

theorem validateServer_isOk_iff (name : String) (s : RawServerEntry) :
    (validateServer name s).isOk = true ↔ entryOk s := by
  unfold validateServer entryOk
  split_ifs with h1 h2 h3
  · simp [Except.isOk, Except.toBool, h1]
  · cases hc : s.command with
    | none => simp [Except.isOk, Except.toBool, h1, h2, hc]
    | some c => simp [Except.isOk, Except.toBool, h1, h2, hc]
  · cases hu : s.url with
    | none => simp [Except.isOk, Except.toBool, h1, h2, h3, hu]
    | some u => simp [Except.isOk, Except.toBool, h1, h2, h3, hu]
  · simp [Except.isOk, Except.toBool, h1, h2, h3]

theorem validateServer_error_names_offender (name : String) (s : RawServerEntry)
    (h : (validateServer name s).isOk = false) :
    ∃ pre post, validateServer name s = Except.error (pre ++ name ++ post) := by
  unfold validateServer at h ⊢
  split_ifs with h1 h2 h3
  · exact ⟨"Server \x27", "\x27 missing type", rfl⟩
  · cases hc : s.command with
    | none => exact ⟨"STDIO server \x27", "\x27 missing command", rfl⟩
    | some c => simp [hc, Except.isOk, Except.toBool, h1, h2] at h
  · cases hu : s.url with
    | none => exact ⟨s.type.toUpper ++ " server \x27", "\x27 missing URL", rfl⟩
    | some u => simp [hu, Except.isOk, Except.toBool, h1, h2, h3] at h
  · simp [Except.isOk, Except.toBool, h1, h2, h3] at h

theorem firstError_isOk_iff (l : List (String × RawServerEntry)) :
    (firstError l).isOk = true ↔
      ∀ p ∈ l, (validateServer p.1 p.2).isOk = true := by
  induction l with
  | nil => simp [firstError, Except.isOk, Except.toBool]
  | cons p rest ih =>
    obtain ⟨name, s⟩ := p
    cases hv : validateServer name s with
    | error e => simp [firstError, hv, Except.isOk, Except.toBool]
    | ok u =>
      have hred : firstError ((name, s) :: rest) = firstError rest := by
        simp [firstError, hv]
      rw [hred, ih]
      constructor
      · intro h p hp
        rcases List.mem_cons.mp hp with h1 | h1
        · rw [h1]
          simp [hv, Except.isOk, Except.toBool]
        · exact h p h1
      · intro h p hp
        exact h p (List.mem_cons_of_mem _ hp)

end MCPConfigParser

/-- C6 counterexample: a server declaring the unknown transport kind
"magic" (with neither command nor URL) passes `validateConfig`, so
loading does not fail as the claim demands; the rejection happens only
at connection time, where `connectToServer` returns failure even under
an adapter that always succeeds. -/
theorem unknown_transport_kind_passes_validation :
    MCPConfigParser.validateConfig
        (MCPConfigParser.FileState.content
          ⟨some [("weird",
            MCPConfigParser.RawServerEntry.mk "magic" none none none none none)]⟩)
        none = true ∧
    EnhancedMCPClient.connectToServer
        (MCPConfigParser.MCPServerConfig.mk "weird" "magic" none [] none none 5000)
        (fun _ => true) = false := by
  constructor
  · decide
  · decide

/-- C6 amended: validation fails iff some server entry omits the type
field, is a stdio server without a command, or an http/websocket
server without a URL (equivalently, loading succeeds iff every entry
passes those checks); every validation diagnostic names the offending
server; an unknown non-empty transport kind is NOT rejected at loading
time — such a server passes validation and its connect attempt fails
at connection time instead. -/
theorem validateConfig_requirements_amended
    (servers : List (String × MCPConfigParser.RawServerEntry))
    (prev : Option MCPConfigParser.MCPJsonConfig) :
    (MCPConfigParser.validateConfig
        (MCPConfigParser.FileState.content ⟨some servers⟩) prev = true
      ↔ ∀ p ∈ servers, MCPConfigParser.entryOk p.2) ∧
    (∀ (name : String) (s : MCPConfigParser.RawServerEntry),
      (MCPConfigParser.validateServer name s).isOk = false →
      ∃ pre post, MCPConfigParser.validateServer name s
        = Except.error (pre ++ name ++ post)) ∧
    (∀ (sv : MCPConfigParser.MCPServerConfig) (attempt : String → Bool),
      sv.type ≠ "stdio" → sv.type ≠ "http" → sv.type ≠ "websocket" →
      EnhancedMCPClient.connectToServer sv attempt = false) := by
  refine ⟨?_, ?_, ?_⟩
  · have hval : MCPConfigParser.validateConfig
        (MCPConfigParser.FileState.content ⟨some servers⟩) prev
        = (MCPConfigParser.firstError servers).isOk := rfl
    rw [hval, MCPConfigParser.firstError_isOk_iff]
    constructor
    · intro h p hp
      exact (MCPConfigParser.validateServer_isOk_iff p.1 p.2).mp (h p hp)
    · intro h p hp
      exact (MCPConfigParser.validateServer_isOk_iff p.1 p.2).mpr (h p hp)
  · exact MCPConfigParser.validateServer_error_names_offender
  · intro sv attempt h1 h2 h3
    simp [EnhancedMCPClient.connectToServer, h1, h2, h3]

/-- Witness for C6 amended: a well-formed stdio entry passes
validation; an unknown-kind server fails at connect; a stdio entry
without a command draws a diagnostic embedding the server name. -/
theorem validateConfig_requirements_amended_witness :
    MCPConfigParser.validateConfig
        (MCPConfigParser.FileState.content
          ⟨some [("good",
            MCPConfigParser.RawServerEntry.mk "stdio" (some "node") none none none none)]⟩)
        none = true ∧
    EnhancedMCPClient.connectToServer
        (MCPConfigParser.MCPServerConfig.mk "w2" "magic" none [] none none 5000)
        (fun _ => false) = false ∧
    ∃ pre post,
      MCPConfigParser.validateServer "bad"
          (MCPConfigParser.RawServerEntry.mk "stdio" none none none none none)
        = Except.error (pre ++ "bad" ++ post) :=
  ⟨(validateConfig_requirements_amended
      [("good", MCPConfigParser.RawServerEntry.mk "stdio" (some "node") none none none none)]
      none).1.mpr (by decide),
   (validateConfig_requirements_amended [] none).2.2
      (MCPConfigParser.MCPServerConfig.mk "w2" "magic" none [] none none 5000)
      (fun _ => false) (by decide) (by decide) (by decide),
   (validateConfig_requirements_amended [] none).2.1 "bad"
      (MCPConfigParser.RawServerEntry.mk "stdio" none none none none none) (by decide)⟩

namespace EnhancedMCPClient

theorem find?_owner_append (pre : List (String × List MCPTool)) (sid : String)
    (ts : List MCPTool) (rest : List (String × List MCPTool)) (toolName : String)
    (hpre : ∀ p ∈ pre, p.2.any (fun t => t.name = toolName) = false)
    (hts : ts.any (fun t => t.name = toolName) = true) :
    (pre ++ (sid, ts) :: rest).find? (fun p => p.2.any (fun t => t.name = toolName))
      = some (sid, ts) := by
  induction pre with
  | nil => simp [List.find?, hts]
  | cons p pre2 ih =>
    have hp : p.2.any (fun t => t.name = toolName) = false :=
      hpre p (List.mem_cons_self p pre2)
    simp only [List.cons_append, List.find?, hp]
    exact ih (fun x hx => hpre x (List.mem_cons_of_mem _ hx))

theorem getAllTools_foldl_length (reg : List (String × List MCPTool))
    (acc : List MCPTool) :
    (reg.foldl (fun a p => a ++ p.2) acc).length
      = acc.length + (reg.map (fun p => p.2.length)).sum := by
  induction reg generalizing acc with
  | nil => simp
  | cons p rest ih =>
    simp only [List.foldl_cons, List.map_cons, List.sum_cons, ih,
      List.length_append]
    omega

end EnhancedMCPClient

/-- C7 counterexample: servers s1 (discovered first) and s2
(discovered last) both expose "read_file". Contrary to
last-discovered-wins, the merged registry keeps BOTH entries (the s1 entry is
not replaced), and invocation dispatches to the FIRST-discovered
owner: with only s2 connected, calling the tool fails with a
no-connection error naming s1 — had dispatch gone to the
last-discovered s2, the call would have succeeded. -/
theorem tool_collision_both_kept_first_wins :
    EnhancedMCPClient.getAllTools
        [("s1", [EnhancedMCPClient.MCPTool.mk "read_file" "d1" "sch" "s1"]),
         ("s2", [EnhancedMCPClient.MCPTool.mk "read_file" "d2" "sch" "s2"])]
      = [EnhancedMCPClient.MCPTool.mk "read_file" "d1" "sch" "s1",
         EnhancedMCPClient.MCPTool.mk "read_file" "d2" "sch" "s2"] ∧
    EnhancedMCPClient.callTool
        [("s1", [EnhancedMCPClient.MCPTool.mk "read_file" "d1" "sch" "s1"]),
         ("s2", [EnhancedMCPClient.MCPTool.mk "read_file" "d2" "sch" "s2"])]
        [("s2", "stdio")] "read_file" "x"
      = Except.error ("No connection to server \x27s1\x27") := by
  constructor
  · rfl
  · rfl

/-- C7 amended: on a name collision the merged registry keeps every
entry of each server (the total tool count is the sum of all slices —
nothing is dropped or overwritten), and invocation dispatches to the
FIRST server in discovery/insertion order that exposes the name, not
the last. -/
theorem tool_name_collision_amended
    (pre : List (String × List EnhancedMCPClient.MCPTool)) (sid : String)
    (ts : List EnhancedMCPClient.MCPTool)
    (rest : List (String × List EnhancedMCPClient.MCPTool))
    (conns : List (String × String)) (toolName path : String)
    (hpre : ∀ p ∈ pre, p.2.any (fun t => t.name = toolName) = false)
    (hts : ts.any (fun t => t.name = toolName) = true) :
    EnhancedMCPClient.toolOwner (pre ++ (sid, ts) :: rest) toolName = some sid ∧
    EnhancedMCPClient.callTool (pre ++ (sid, ts) :: rest) conns toolName path
      = EnhancedMCPClient.executeToolOnServer conns sid toolName path ∧
    ∀ reg : List (String × List EnhancedMCPClient.MCPTool),
      (EnhancedMCPClient.getAllTools reg).length
        = (reg.map (fun p => p.2.length)).sum := by
  have hfind := EnhancedMCPClient.find?_owner_append pre sid ts rest toolName hpre hts
  refine ⟨?_, ?_, ?_⟩
  · simp [EnhancedMCPClient.toolOwner, hfind]
  · simp [EnhancedMCPClient.callTool, hfind]
  · intro reg
    have := EnhancedMCPClient.getAllTools_foldl_length reg []
    simpa [EnhancedMCPClient.getAllTools] using this

/-- Witness for C7 amended: with an empty first server, dispatch for
"read_file" goes to s1, the first owner, though s2 also exposes it. -/
theorem tool_name_collision_amended_witness :
    EnhancedMCPClient.toolOwner
        [("s0", []),
         ("s1", [EnhancedMCPClient.MCPTool.mk "read_file" "d1" "sch" "s1"]),
         ("s2", [EnhancedMCPClient.MCPTool.mk "read_file" "d2" "sch" "s2"])]
        "read_file" = some "s1" :=
  (tool_name_collision_amended [("s0", [])] "s1"
      [EnhancedMCPClient.MCPTool.mk "read_file" "d1" "sch" "s1"]
      [("s2", [EnhancedMCPClient.MCPTool.mk "read_file" "d2" "sch" "s2"])]
      [] "read_file" "x" (by decide) (by decide)).1

/-- C8: `callTool` dispatch. If no discovered tool carries the name,
it fails with the unknown-tool error. Otherwise, letting the owner be
the first registry entry exposing the name: with no active connection
for that server it fails with the no-connection (server unavailable)
error; with an active connection it returns, verbatim, the
execution result or failure of the owning server (the value of the embedded
per-server execution, unmodified). -/
theorem callTool_dispatch
    (reg : List (String × List EnhancedMCPClient.MCPTool))
    (conns : List (String × String)) (toolName path : String) :
    ((∀ p ∈ reg, p.2.any (fun t => t.name = toolName) = false) →
      EnhancedMCPClient.callTool reg conns toolName path
        = Except.error
            ("Tool \x27" ++ toolName ++ "\x27 not found in any connected server")) ∧
    (∀ (sid : String) (ts : List EnhancedMCPClient.MCPTool),
      reg.find? (fun p => p.2.any (fun t => t.name = toolName)) = some (sid, ts) →
      (conns.lookup sid = none →
        EnhancedMCPClient.callTool reg conns toolName path
          = Except.error ("No connection to server \x27" ++ sid ++ "\x27")) ∧
      ((conns.lookup sid).isSome = true →
        EnhancedMCPClient.callTool reg conns toolName path
          = EnhancedMCPClient.mockExecute toolName path)) := by
  constructor
  · intro hnone
    have hfind : reg.find? (fun p => p.2.any (fun t => t.name = toolName)) = none := by
      rw [List.find?_eq_none]
      intro p hp
      simp [hnone p hp]
    simp [EnhancedMCPClient.callTool, hfind]
  · intro sid ts hfind
    constructor
    · intro hconn
      simp [EnhancedMCPClient.callTool, hfind,
        EnhancedMCPClient.executeToolOnServer, hconn]
    · intro hconn
      simp [EnhancedMCPClient.callTool, hfind,
        EnhancedMCPClient.executeToolOnServer, hconn]

/-- Witness for C8: a registered tool on a connected server executes
and returns the value of the mock execution verbatim. -/
theorem callTool_dispatch_witness :
    EnhancedMCPClient.callTool
        [("s1", [EnhancedMCPClient.MCPTool.mk "read_file" "d" "sch" "s1"])]
        [("s1", "stdio")] "read_file" "x"
      = EnhancedMCPClient.mockExecute "read_file" "x" :=
  ((callTool_dispatch
      [("s1", [EnhancedMCPClient.MCPTool.mk "read_file" "d" "sch" "s1"])]
      [("s1", "stdio")] "read_file" "x").2 "s1"
      [EnhancedMCPClient.MCPTool.mk "read_file" "d" "sch" "s1"]
      (by decide)).2 (by decide)

/-- C9: a missing or unreadable descriptor document is not an error:
`loadConfig` returns normally with a null result (exceptions are
caught inside, nothing escapes), the stored configuration of a fresh
parser stays null, and `getServers` then returns the empty list — the
system degrades to offering no tools. -/
theorem missing_config_yields_empty_servers :
    MCPConfigParser.loadConfig MCPConfigParser.FileState.missing none
      = (none, none) ∧
    MCPConfigParser.loadConfig MCPConfigParser.FileState.unreadable none
      = (none, none) ∧
    MCPConfigParser.getServers none = [] :=
  ⟨rfl, rfl, rfl⟩

/-- C10: after `disconnect` the public state is fully reset, whatever
was connected or discovered before: `isConnected` is false,
`getConnectedServers` is empty, and `getAllTools` is empty. -/
theorem disconnect_resets_public_state (s : EnhancedMCPClient.ClientState) :
    EnhancedMCPClient.isConnected (EnhancedMCPClient.disconnect s) = false ∧
    EnhancedMCPClient.getConnectedServers (EnhancedMCPClient.disconnect s) = [] ∧
    EnhancedMCPClient.getAllTools
        (EnhancedMCPClient.disconnect s).availableTools = [] :=
  ⟨rfl, rfl, rfl⟩
